import Mathlib

/-!
Shallow embedding of the in-memory RAG vector store of `app/rag.py` and of the
ingestion entry point of `app/ingest.py`.

Python floats are modelled with exact rationals.  The external `math.sqrt` is a
function parameter `sq`, and the external OpenAI embedding call is a function
parameter `emb`.  The process environment value `os.getenv("OPENAI_API_KEY")`
is an `Option String` (`none` when the variable is unset).  The global mutable
list `VECTOR_STORE` is passed around explicitly as a `List Record`.
-/

namespace Rag

/-- A Python metadata value: the metadata dicts built by `ingest_payload` hold
strings, ints, and `None`. -/
inductive MVal where
  | str (s : String)
  | int (n : Int)
  | nil
deriving DecidableEq

/-- A Python dict used as document metadata, as an association list. -/
abbrev Meta := List (String × MVal)

/-- One record of `VECTOR_STORE` (rag.py line 12):
`{"text": ..., "meta": ..., "embedding": ...}`. -/
structure Record where
  text : String
  meta : Meta
  embedding : List ℚ
deriving DecidableEq

/-- Python truthiness of a string: only `""` is falsy. -/
def pyStrTruthy (s : String) : Bool := !s.data.isEmpty

/-- Python's `str.strip()` (rag.py lines 35, 37, 39): the string with leading
and trailing whitespace removed. -/
def pyStrip (s : String) : String :=
  String.mk (((s.data.dropWhile Char.isWhitespace).reverse.dropWhile Char.isWhitespace).reverse)

/-- Model of `meta or {}` (rag.py line 38): a falsy `meta` (`None` or `{}`) is replaced
by the empty dict. -/
def pyDictOrEmpty (meta : Option Meta) : Meta :=
  match meta with
  | none => []
  | some m => if m.isEmpty then [] else m

/-- Truthiness of `os.getenv("OPENAI_API_KEY")`: unset (`None`) or `""` is
falsy. -/
def envTruthy (v : Option String) : Bool :=
  match v with
  | none => false
  | some s => !s.isEmpty

/-- The error raised by `_require_key`
(`RuntimeError("OPENAI_API_KEY not set. ...")`, rag.py line 16). -/
inductive RagError where
  | keyNotSet
deriving DecidableEq

/-- Model of `_require_key()` (rag.py lines 14-16).  (The leading underscore of the
Python name is dropped: Lean reserves `_`-prefixed identifiers.) -/
def require_key (env : Option String) : Except RagError Unit :=
  if envTruthy env then Except.ok () else Except.error RagError.keyNotSet

/-- Model of `embed(text)` (rag.py lines 18-24): checks the key, then calls the external
embedding API, modelled by the parameter `emb`. -/
def embed (env : Option String) (emb : String → List ℚ) (text : String) :
    Except RagError (List ℚ) :=
  match require_key env with
  | Except.error e => Except.error e
  | Except.ok _ => Except.ok (emb text)

/-- Model of `dot = sum(x*y for x, y in zip(a, b))` (rag.py line 27). -/
def dot (a b : List ℚ) : ℚ := ((a.zip b).map (fun p => p.1 * p.2)).sum

/-- Model of `sum(x*x for x in a)`: the argument of `math.sqrt` in rag.py lines 28-29,
so that `sq (sumSq a)` models `na = math.sqrt(sum(x*x for x in a))`. -/
def sumSq (a : List ℚ) : ℚ := (a.map (fun x => x * x)).sum

/-- Model of `cosine(a, b)` (rag.py lines 26-32); `sq` models `math.sqrt`. -/
def cosine (sq : ℚ → ℚ) (a b : List ℚ) : ℚ :=
  let d := dot a b
  let na := sq (sumSq a)
  let nb := sq (sumSq b)
  if na = 0 ∨ nb = 0 then 0 else d / (na * nb)

/-- Model of `add_document(text, meta)` (rag.py lines 34-41), with the global store
passed explicitly.  Returns the new store, and `some e` when the embedding call
raised `e` (in which case the append to `VECTOR_STORE` never ran). -/
def add_document (env : Option String) (emb : String → List ℚ) (text : String)
    (meta : Option Meta) (store : List Record) : List Record × Option RagError :=
  if !pyStrTruthy text || !pyStrTruthy (pyStrip text) then (store, none)
  else
    match embed env emb (pyStrip text) with
    | Except.error e => (store, some e)
    | Except.ok v => (store ++ [⟨pyStrip text, pyDictOrEmpty meta, v⟩], none)

/-- The order used by `scored.sort(key=lambda x: x[0], reverse=True)`
(rag.py line 48): descending by score. -/
def scoreGe (x y : ℚ × Record) : Prop := y.1 ≤ x.1

instance : DecidableRel scoreGe := fun x y => inferInstanceAs (Decidable (y.1 ≤ x.1))

instance : IsTotal (ℚ × Record) scoreGe := ⟨fun x y => le_total y.1 x.1⟩

instance : IsTrans (ℚ × Record) scoreGe := ⟨fun _ _ _ h1 h2 => le_trans h2 h1⟩

/-- Python slicing `l[:k]` for an int `k` (rag.py line 49: `scored[:top_k]`):
the first `k` elements when `k ≥ 0`, and all but the last `-k` when `k < 0`. -/
def pySliceTo {α : Type} (l : List α) (k : Int) : List α :=
  if 0 ≤ k then l.take k.toNat else l.take (l.length + k).toNat

/-- Model of `search(query, top_k=4)` (rag.py lines 43-49).  Python's `list.sort` is
stable, and `reverse=True` sorts descending while keeping equal keys in their
original order; this is modelled by the stable `List.insertionSort` under the
descending relation `scoreGe`. -/
def search (sq : ℚ → ℚ) (env : Option String) (emb : String → List ℚ)
    (query : String) (top_k : Int) (store : List Record) :
    Except RagError (List Record) :=
  if store.isEmpty then Except.ok []
  else
    match embed env emb query with
    | Except.error e => Except.error e
    | Except.ok q_emb =>
      let scored := store.map (fun d => (cosine sq q_emb d.embedding, d))
      let sorted := List.insertionSort scoreGe scored
      Except.ok ((pySliceTo sorted top_k).map Prod.snd)

/-- The names bound at top level in module `app.rag` (rag.py): its four imports
and its definitions.  There is no `upsert_text`. -/
def ragModuleNames : List String :=
  ["os", "math", "load_dotenv", "OpenAI", "client", "VECTOR_STORE",
   "_require_key", "embed", "cosine", "add_document", "search"]

/-- The error raised when `from app.rag import upsert_text` (ingest.py line 3)
fails to resolve the name. -/
inductive IngestError where
  | importError (missingName : String)
deriving DecidableEq

/-- Name resolution for `from app.rag import <name>` (ingest.py line 3). -/
def fromRagImport (name : String) : Except IngestError Unit :=
  if name ∈ ragModuleNames then Except.ok () else Except.error (IngestError.importError name)

/-- Model of `ingest_payload(text, source, filename)` (ingest.py lines 5-12), with
`int(time.time())` passed explicitly as `ts` and the store passed explicitly.
The function body needs the name `upsert_text` from `app.rag`, so resolution of
that name is the first step.  The `Except.ok` branch is unreachable, because
`"upsert_text" ∉ ragModuleNames`; it returns the meta dict the source would
return, and there is no `upsert_text` definition anywhere in the repository
that could be modelled there, so the store is left as is. -/
def ingest_payload (text source : String) (filename : Option String) (ts : Int)
    (store : List Record) : Except IngestError Meta × List Record :=
  match fromRagImport "upsert_text" with
  | Except.error e => (Except.error e, store)
  | Except.ok _ =>
    (Except.ok [("source", MVal.str source),
                ("filename", match filename with | none => MVal.nil | some f => MVal.str f),
                ("ts", MVal.int ts)],
     store)

/-- One call against the global `VECTOR_STORE`: either `add_document` or
`search`. -/
inductive Op where
  | addDoc (text : String) (meta : Option Meta)
  | runSearch (query : String) (top_k : Int)

/-- The store after one call.  `add_document` yields its updated store;
`search` (rag.py lines 43-49) only reads `VECTOR_STORE` — it maps it into the
fresh list `scored` and sorts that copy — so the store is unchanged. -/
def applyOp (env : Option String) (emb : String → List ℚ) (store : List Record) :
    Op → List Record
  | Op.addDoc t m => (add_document env emb t m store).1
  | Op.runSearch _ _ => store

/-- The store after a sequence of `add_document` / `search` calls. -/
def applyOps (env : Option String) (emb : String → List ℚ) (store : List Record)
    (ops : List Op) : List Record :=
  ops.foldl (applyOp env emb) store

/-- The store after `add_document` calls for each `(text, meta)` of `docs`,
starting from the empty store. -/
def addAll (env : Option String) (emb : String → List ℚ)
    (docs : List (String × Option Meta)) : List Record :=
  docs.foldl (fun s td => (add_document env emb td.1 td.2 s).1) []

/-! ### Helper lemmas -/

theorem pyStrip_data_nil {s : String} (h : s.data = []) : (pyStrip s).data = [] := by
  simp [pyStrip, h]

theorem pyStrTruthy_of_strip {s : String} (h : pyStrTruthy (pyStrip s) = true) :
    pyStrTruthy s = true := by
  cases hs : s.data.isEmpty with
  | false => simp [pyStrTruthy, hs]
  | true =>
    exfalso
    have hd : s.data = [] := List.isEmpty_iff.mp hs
    have h2 := pyStrip_data_nil hd
    simp [pyStrTruthy, h2] at h

theorem dot_comm (a : List ℚ) : ∀ b : List ℚ, dot a b = dot b a := by
  induction a with
  | nil => intro b; cases b <;> simp [dot]
  | cons x a ih =>
    intro b
    cases b with
    | nil => simp [dot]
    | cons y b =>
      have ih2 := ih b
      simp only [dot, List.zip_cons_cons, List.map_cons, List.sum_cons] at ih2 ⊢
      rw [mul_comm x y, ih2]

theorem dot_self (v : List ℚ) : dot v v = sumSq v := by
  induction v with
  | nil => rfl
  | cons x v ih =>
    simp only [dot, sumSq, List.zip_cons_cons, List.map_cons, List.sum_cons] at ih ⊢
    rw [ih]

theorem filter_orderedInsert_score (c : ℚ) (b : ℚ × Record) (m : List (ℚ × Record)) :
    (List.orderedInsert scoreGe b m).filter (fun x => decide (x.1 = c)) =
      if b.1 = c then b :: m.filter (fun x => decide (x.1 = c))
      else m.filter (fun x => decide (x.1 = c)) := by
  induction m with
  | nil =>
    by_cases hb : b.1 = c <;> simp [List.orderedInsert, hb]
  | cons x m ih =>
    by_cases hr : scoreGe b x
    · by_cases hb : b.1 = c <;>
        simp [List.orderedInsert, hr, List.filter_cons, hb]
    · have hnle : ¬ x.1 ≤ b.1 := hr
      have hlt : b.1 < x.1 := not_le.mp hnle
      by_cases hb : b.1 = c
      · have hx : ¬ x.1 = c := by
          rw [← hb]
          exact ne_of_gt hlt
        simp [List.orderedInsert, hr, List.filter_cons, hb, hx, ih]
      · by_cases hx : x.1 = c <;>
          simp [List.orderedInsert, hr, List.filter_cons, hb, hx, ih]

theorem filter_insertionSort_score (c : ℚ) (l : List (ℚ × Record)) :
    (List.insertionSort scoreGe l).filter (fun x => decide (x.1 = c)) =
      l.filter (fun x => decide (x.1 = c)) := by
  induction l with
  | nil => rfl
  | cons b l ih =>
    by_cases hb : b.1 = c <;>
      simp [List.insertionSort, filter_orderedInsert_score c b, ih, List.filter_cons, hb]

theorem mem_of_mem_pySliceTo {α : Type} {l : List α} {k : Int} {x : α}
    (h : x ∈ pySliceTo l k) : x ∈ l := by
  unfold pySliceTo at h
  split at h <;> exact List.take_subset _ _ h

theorem search_ok_spec (sq : ℚ → ℚ) (env : Option String) (emb : String → List ℚ)
    (query : String) (top_k : Int) (store : List Record) (res : List Record)
    (hk : 0 ≤ top_k)
    (hres : search sq env emb query top_k store = Except.ok res) :
    res.length ≤ top_k.toNat ∧ ∀ r ∈ res, r ∈ store := by
  by_cases hs : store.isEmpty
  · simp [search, hs] at hres
    subst hres
    simp
  · cases hemb : embed env emb query with
    | error e => simp [search, hs, hemb] at hres
    | ok q =>
      have hstep : search sq env emb query top_k store =
          Except.ok ((pySliceTo (List.insertionSort scoreGe
            (store.map (fun d => (cosine sq q d.embedding, d)))) top_k).map Prod.snd) := by
        unfold search
        rw [if_neg hs, hemb]
      rw [hstep] at hres
      have hres2 := Except.ok.inj hres
      subst hres2
      constructor
      · rw [List.length_map, pySliceTo, if_pos hk]
        exact List.length_take_le _ _
      · intro r hr
        obtain ⟨p, hp, hpr⟩ := List.mem_map.mp hr
        have hp2 : p ∈ List.insertionSort scoreGe
            (store.map (fun d => (cosine sq q d.embedding, d))) :=
          mem_of_mem_pySliceTo hp
        have hp3 : p ∈ store.map (fun d => (cosine sq q d.embedding, d)) :=
          (List.mem_insertionSort scoreGe).mp hp2
        obtain ⟨d, hd, hdp⟩ := List.mem_map.mp hp3
        rw [← hpr, ← hdp]
        exact hd

/-! ### Claims -/

/-- Claim C1: for every text and meta, `add_document` is a no-op when the text
is empty or whitespace-only (its strip is empty); otherwise, when the API key
is set so the embedding call succeeds, it appends exactly one record whose text
is the stripped input, whose meta is the given meta (empty dict when falsy) and
whose embedding is the embedding of the stripped text, leaving all previous
records unchanged. -/
theorem claim_C1 (env : Option String) (emb : String → List ℚ) (text : String)
    (meta : Option Meta) (store : List Record) :
    (pyStrTruthy (pyStrip text) = false →
      add_document env emb text meta store = (store, none))
    ∧ (pyStrTruthy (pyStrip text) = true → envTruthy env = true →
      add_document env emb text meta store =
        (store ++ [⟨pyStrip text, pyDictOrEmpty meta, emb (pyStrip text)⟩], none)) := by
  constructor
  · intro h
    simp [add_document, h]
  · intro h hk
    have ht := pyStrTruthy_of_strip h
    simp [add_document, h, ht, embed, require_key, hk]

/-- Witness for C1 at `text = " "` (whitespace-only: no-op) and
`text = " ab "` (stripped and appended). -/
theorem claim_C1_witness :
    (add_document (some "k") (fun _ => [1]) " " none [] = ([], none))
    ∧ (add_document (some "k") (fun _ => [1]) " ab " none [] =
        ([] ++ [⟨pyStrip " ab ", pyDictOrEmpty none, (fun _ => ([1] : List ℚ)) (pyStrip " ab ")⟩],
         none)) :=
  ⟨(claim_C1 (some "k") (fun _ => [1]) " " none []).1 (by decide),
   (claim_C1 (some "k") (fun _ => [1]) " ab " none []).2 (by decide) rfl⟩

/-- Claim C2: `search` on the empty store returns the empty list, for every
query, every `top_k`, every environment (even with the key unset, so the
embedding call is never reached) and every embedding function. -/
theorem claim_C2 (sq : ℚ → ℚ) (env : Option String) (emb : String → List ℚ)
    (query : String) (top_k : Int) :
    search sq env emb query top_k [] = Except.ok [] := rfl

/-- Claim C5: `cosine` returns `0` when either vector has zero magnitude
(`sq (sumSq ·)` models `math.sqrt(sum(x*x ...))`), and otherwise the dot
product divided by the product of the magnitudes; the division is guarded by
the zero test. -/
theorem claim_C5 (sq : ℚ → ℚ) (a b : List ℚ) :
    ((sq (sumSq a) = 0 ∨ sq (sumSq b) = 0) → cosine sq a b = 0)
    ∧ (sq (sumSq a) ≠ 0 → sq (sumSq b) ≠ 0 →
        cosine sq a b = dot a b / (sq (sumSq a) * sq (sumSq b))) := by
  constructor
  · intro h
    simp only [cosine]
    rw [if_pos h]
  · intro ha hb
    simp only [cosine]
    rw [if_neg (by simp [ha, hb])]

/-- Witness for C5 at `a = [0], b = [1]` (zero magnitude) and
`a = [1], b = [2]` (both magnitudes non-zero), with `sq` the identity. -/
theorem claim_C5_witness :
    cosine (fun x => x) [0] [1] = 0
    ∧ cosine (fun x => x) [1] [2] = dot [1] [2] / (sumSq [1] * sumSq [2]) :=
  ⟨(claim_C5 (fun x => x) [0] [1]).1 (Or.inl (by norm_num [sumSq])),
   (claim_C5 (fun x => x) [1] [2]).2 (by norm_num [sumSq]) (by norm_num [sumSq])⟩

/-- Claim C6: cosine similarity is symmetric. -/
theorem claim_C6 (sq : ℚ → ℚ) (a b : List ℚ) : cosine sq a b = cosine sq b a := by
  simp only [cosine]
  rw [dot_comm a b, mul_comm (sq (sumSq a)) (sq (sumSq b))]
  exact if_congr or_comm rfl rfl

/-- Claim C7: for a vector of non-zero magnitude, `cosine v v = 1` exactly.
`sq` models `math.sqrt`; the hypothesis `hsq` is the defining property of the
square root at the one point where it is applied, and `hnz` says the magnitude
of `v` is non-zero. -/
theorem claim_C7 (sq : ℚ → ℚ) (v : List ℚ)
    (hsq : sq (sumSq v) * sq (sumSq v) = sumSq v)
    (hnz : sq (sumSq v) ≠ 0) :
    cosine sq v v = 1 := by
  have hs : sumSq v ≠ 0 := by
    intro h0
    apply hnz
    rw [h0] at hsq
    rw [h0]
    rcases mul_eq_zero.mp hsq with h | h <;> exact h
  simp only [cosine]
  rw [if_neg (by simp [hnz]), dot_self, hsq, div_self hs]

/-- Witness for C7 at `v = [3, 4]`, whose squared magnitude is `25`, with a
square-root function mapping `25` to `5`. -/
theorem claim_C7_witness :
    cosine (fun x => if x = 25 then 5 else 0) [3, 4] [3, 4] = 1 :=
  claim_C7 (fun x => if x = 25 then 5 else 0) [3, 4] (by norm_num [sumSq]) (by norm_num [sumSq])

/-- Claim C3: on a non-empty store (with the key set, so the query embedding
succeeds), `search` returns the stored records ordered by descending cosine
similarity against the query embedding, stably (records with equal scores stay
in insertion order: filtering the sorted scored list at any fixed score gives
exactly the corresponding filter of the original scored list), truncated to the
first `top_k` entries. -/
theorem claim_C3 (sq : ℚ → ℚ) (env : Option String) (emb : String → List ℚ)
    (query : String) (top_k : Int) (store : List Record)
    (hne : store.isEmpty = false) (hkey : envTruthy env = true) :
    search sq env emb query top_k store =
      Except.ok ((pySliceTo
          (List.insertionSort scoreGe
            (store.map (fun d => (cosine sq (emb query) d.embedding, d)))) top_k).map Prod.snd)
    ∧ List.Pairwise (fun x y : ℚ × Record => y.1 ≤ x.1)
        (List.insertionSort scoreGe
          (store.map (fun d => (cosine sq (emb query) d.embedding, d))))
    ∧ ∀ c : ℚ,
        (List.insertionSort scoreGe
            (store.map (fun d => (cosine sq (emb query) d.embedding, d)))).filter
            (fun x => decide (x.1 = c)) =
          (store.map (fun d => (cosine sq (emb query) d.embedding, d))).filter
            (fun x => decide (x.1 = c)) := by
  refine ⟨?_, ?_, ?_⟩
  · have hemb : embed env emb query = Except.ok (emb query) := by
      simp [embed, require_key, hkey]
    simp [search, hne, hemb]
  · exact List.sorted_insertionSort scoreGe _
  · intro c
    exact filter_insertionSort_score c _

/-- Witness for C3: a two-record store whose second record scores strictly
higher than the first, so the sorted order is observable. -/
theorem claim_C3_witness :
    search (fun x => x) (some "k") (fun _ => [1]) "q" 4
        [⟨"a", [], [1]⟩, ⟨"b", [], [2]⟩] =
      Except.ok ((pySliceTo
          (List.insertionSort scoreGe
            ([⟨"a", [], [1]⟩, ⟨"b", [], [2]⟩].map
              (fun d => (cosine (fun x => x) ((fun _ => [1]) "q") d.embedding, d)))) 4).map
        Prod.snd)
    ∧ List.Pairwise (fun x y : ℚ × Record => y.1 ≤ x.1)
        (List.insertionSort scoreGe
          ([⟨"a", [], [1]⟩, ⟨"b", [], [2]⟩].map
            (fun d => (cosine (fun x => x) ((fun _ => [1]) "q") d.embedding, d))))
    ∧ (List.insertionSort scoreGe
          ([⟨"a", [], [1]⟩, ⟨"b", [], [2]⟩].map
            (fun d => (cosine (fun x => x) ((fun _ => [1]) "q") d.embedding, d)))).filter
          (fun x => decide (x.1 = 1)) =
        ([⟨"a", [], [1]⟩, ⟨"b", [], [2]⟩].map
            (fun d => (cosine (fun x => x) ((fun _ => [1]) "q") d.embedding, d))).filter
          (fun x => decide (x.1 = 1)) := by
  obtain ⟨h1, h2, h3⟩ :=
    claim_C3 (fun x => x) (some "k") (fun _ => [1]) "q" 4
      [⟨"a", [], [1]⟩, ⟨"b", [], [2]⟩] rfl rfl
  exact ⟨h1, h2, h3 1⟩

/-- Claim C4: after any sequence of `add_document` calls, `search` with
`top_k ≥ 0` returns at most `top_k` records, all of which were previously
added. -/
theorem claim_C4 (sq : ℚ → ℚ) (env : Option String) (emb : String → List ℚ)
    (docs : List (String × Option Meta)) (query : String) (top_k : Int)
    (res : List Record) (hk : 0 ≤ top_k)
    (hres : search sq env emb query top_k (addAll env emb docs) = Except.ok res) :
    res.length ≤ top_k.toNat ∧ ∀ r ∈ res, r ∈ addAll env emb docs :=
  search_ok_spec sq env emb query top_k (addAll env emb docs) res hk hres

/-- Witness for C4: one added document, `top_k = 4`. -/
theorem claim_C4_witness :
    List.length [(⟨"a", [], [1]⟩ : Record)] ≤ (4 : Int).toNat
    ∧ ∀ r ∈ [(⟨"a", [], [1]⟩ : Record)],
        r ∈ addAll (some "k") (fun _ => [1]) [("a", none)] :=
  claim_C4 (fun x => x) (some "k") (fun _ => [1]) [("a", none)] "q" 4
    [⟨"a", [], [1]⟩] (by norm_num) rfl

/-- Claim C8: with `OPENAI_API_KEY` unset, `add_document` on non-empty text
fails with the configuration error and leaves the store unchanged, and
`search` on a non-empty store fails with the configuration error. -/
theorem claim_C8 (sq : ℚ → ℚ) (env : Option String) (emb : String → List ℚ)
    (text : String) (meta : Option Meta) (query : String) (top_k : Int)
    (store : List Record) (hkey : envTruthy env = false) :
    (pyStrTruthy (pyStrip text) = true →
      add_document env emb text meta store = (store, some RagError.keyNotSet))
    ∧ (store.isEmpty = false →
      search sq env emb query top_k store = Except.error RagError.keyNotSet) := by
  have hemb : ∀ t, embed env emb t = Except.error RagError.keyNotSet := by
    intro t
    simp [embed, require_key, hkey]
  constructor
  · intro h
    have ht := pyStrTruthy_of_strip h
    simp [add_document, h, ht, hemb]
  · intro h
    simp [search, h, hemb]

/-- Witness for C8: unset key, text `"a"`, a one-record store. -/
theorem claim_C8_witness :
    (add_document none (fun _ => [1]) "a" none [⟨"b", [], [2]⟩] =
      ([⟨"b", [], [2]⟩], some RagError.keyNotSet))
    ∧ (search (fun x => x) none (fun _ => [1]) "q" 4 [⟨"b", [], [2]⟩] =
      Except.error RagError.keyNotSet) :=
  ⟨(claim_C8 (fun x => x) none (fun _ => [1]) "a" none "q" 4 [⟨"b", [], [2]⟩] rfl).1
      (by decide),
   (claim_C8 (fun x => x) none (fun _ => [1]) "a" none "q" 4 [⟨"b", [], [2]⟩] rfl).2 rfl⟩

/-- Claim C9: over any sequence of `add_document` / `search` calls, the store
only grows at the end: the prior store is always a prefix of the resulting
store, so every previously stored record is still present, unchanged, at its
original position (and a `search` call leaves the store as it was). -/
theorem claim_C9 (env : Option String) (emb : String → List ℚ)
    (store : List Record) (ops : List Op) :
    store <+: applyOps env emb store ops := by
  induction ops generalizing store with
  | nil => exact List.prefix_rfl
  | cons op ops ih =>
    have h1 : store <+: applyOp env emb store op := by
      cases op with
      | addDoc t m =>
        simp only [applyOp]
        by_cases hcond : (!pyStrTruthy t || !pyStrTruthy (pyStrip t)) = true
        · simp only [add_document, if_pos hcond]
          exact List.prefix_rfl
        · cases hemb : embed env emb (pyStrip t) with
          | error e =>
            simp only [add_document, if_neg hcond, hemb]
            exact List.prefix_rfl
          | ok v =>
            simp only [add_document, if_neg hcond, hemb]
            exact List.prefix_append _ _
      | runSearch q k => exact List.prefix_rfl
    have h2 : applyOps env emb store (op :: ops) =
        applyOps env emb (applyOp env emb store op) ops := rfl
    rw [h2]
    exact h1.trans (ih _)

/-- Claim C10: `ingest_payload` always fails with the name-resolution error for
`upsert_text` (which `app.rag` does not define) and never changes the store. -/
theorem claim_C10 (text source : String) (filename : Option String) (ts : Int)
    (store : List Record) :
    ingest_payload text source filename ts store =
      (Except.error (IngestError.importError "upsert_text"), store) := rfl

end Rag
